import Mathlib

/-!
# Verification of GEXtool (`src/main.py`)

A shallow embedding of the tiling / transparency-detection subsystem of
GEXtool, together with theorems settling the specification claims.

Conventions of the embedding:
* Python strings are modelled as `List Char`.
* PIL pixel values are modelled by the inductive `Pixel`: in `P`
  (indexed-palette) mode and in single-channel ("other") modes
  `Image.getdata` yields machine integers (`Pixel.scalar`), in `RGBA`
  mode it yields 4-tuples (`Pixel.rgba`).  Python `==` between a tuple
  and an int is `False`, which structural equality of the inductive
  reproduces.
* External effects (PIL `Image.crop`, the filesystem, the `gdalinfo` /
  `gdal_translate` binaries) are abstracted as opaque functions or
  environment records; the control flow around them is translated
  faithfully from `src/main.py`.
-/

namespace GEXtool

/-- A PIL pixel value as returned by `Image.getdata()`: a machine integer
for palette / single-band images, a 4-tuple for RGBA images. -/
inductive Pixel where
  | scalar (v : Int)
  | rgba (r g b a : Nat)
deriving DecidableEq, Repr

/-- The PIL color modes distinguished by `has_transparency`
(`img.mode == "P"`, `img.mode == "RGBA"`, anything else). -/
inductive Mode where
  | P
  | RGBA
  | other
deriving DecidableEq, Repr

/-- An in-memory tile: its declared color mode, the value of
`img.info.get("transparency")` (absent ↦ `none`), and the flattened pixel
data `list(img.getdata())`. -/
structure Tile where
  mode : Mode
  transparency : Option Int
  pixels : List Pixel
deriving DecidableEq, Repr

/-- Model of `img.getcolors()`: the list of distinct pixel values present
in the image (the occurrence counts that PIL pairs with each value are
ignored by `has_transparency`, which only reads the value). -/
def getcolors (pixels : List Pixel) : List Pixel :=
  pixels.dedup

/-- Model of `img.getextrema()[3][0]` on an RGBA image: the minimum of the
alpha channel over all pixels (255, the neutral element, if there are no
pixels; that case is unreached on PIL images, which are non-empty when
this branch runs). -/
def alpha_extrema_min (pixels : List Pixel) : Nat :=
  pixels.foldl (fun m p => match p with
    | .rgba _ _ _ a => min m a
    | .scalar _ => m) 255

/-- Shallow embedding of `has_transparency` (src/main.py lines 33-53).
The `print` trace lines are side effects and are not modelled. -/
def has_transparency (img : Tile) : Bool :=
  match img.mode with
  | .P =>
      let transparent : Int := img.transparency.getD (-1)
      if (getcolors img.pixels).any (fun index => decide (index = .scalar transparent)) then
        true
      else
        img.pixels.any (fun pixel => decide (pixel = .scalar 0))
  | .RGBA =>
      if alpha_extrema_min img.pixels < 255 then
        true
      else
        img.pixels.any (fun pixel => decide (pixel = .scalar 0))
  | .other =>
      img.pixels.any (fun pixel => decide (pixel = .scalar 0))

/-- Well-formedness of a tile as PIL produces it: in `P` mode every pixel
is a palette index in `[0, 256)`; in `RGBA` mode every pixel is a 4-tuple
of 8-bit channels. -/
def Tile.wf (t : Tile) : Bool :=
  match t.mode with
  | .P => t.pixels.all (fun p => match p with
      | .scalar v => decide (0 ≤ v) && decide (v < 256)
      | .rgba _ _ _ _ => false)
  | .RGBA => t.pixels.all (fun p => match p with
      | .scalar _ => false
      | .rgba r g b a => decide (r < 256) && decide (g < 256) && decide (b < 256) && decide (a < 256))
  | .other => true

/-- The transparency classifier as the specification words it (claim C1):
rule 1 for indexed-palette mode (a designated transparent index, the
sentinel −1 standing for "none designated" and then matching no pixel),
rule 2 for RGB-with-alpha mode (minimum alpha below 255), rule 3 in any
mode (some raw pixel value equals the integer 0). -/
def transparency_claim (t : Tile) : Bool :=
  match t.mode with
  | .P =>
      match t.transparency with
      | some idx =>
          if t.pixels.any (fun p => decide (p = .scalar idx)) then true
          else t.pixels.any (fun p => decide (p = .scalar 0))
      | none => t.pixels.any (fun p => decide (p = .scalar 0))
  | .RGBA =>
      if alpha_extrema_min t.pixels < 255 then true
      else t.pixels.any (fun p => decide (p = .scalar 0))
  | .other => t.pixels.any (fun p => decide (p = .scalar 0))

/-! ## String utilities (Python string operations used by the tool) -/

/-- Constant `converted_suffix = "_GEXD"` (src/main.py line 28). -/
def converted_suffix : List Char := "_GEXD".toList

/-- Constant `converted_format = "png"` (src/main.py line 29). -/
def converted_format : List Char := "png".toList

/-- Constant `tile_format = "png"` (src/main.py line 30). -/
def tile_format : List Char := "png".toList

/-- Model of Python `s.split(sep)[0]`: the prefix of `s` before the first
occurrence of `sep` (all of `s` when `sep` does not occur). -/
def pySplit0 (sep : Char) (s : List Char) : List Char :=
  s.takeWhile (fun c => decide (c ≠ sep))

/-- Model of Python `s.endswith(suffix)`. -/
def pyEndswith (s sfx : List Char) : Bool :=
  sfx.isSuffixOf s

/-- Decimal rendering of a natural number, one character per digit, no
leading zeros (the digits of `str(n)` in Python). -/
def decRepr (n : Nat) : List Char :=
  if n = 0 then ['0'] else ((Nat.digits 10 n).map Nat.digitChar).reverse

/-- Model of the Python format `f'{n:0>4}'` (src/main.py lines 66-67):
the decimal rendering of `n` left-padded with `'0'` to at least 4
characters; renderings of 4 or more digits are kept whole (no
truncation). -/
def pad4 (n : Nat) : List Char :=
  List.replicate (4 - (decRepr n).length) '0' ++ decRepr n

/-- The coordinate suffix `f'_{x_f}_{y_f}'` (src/main.py line 68). -/
def tileSuffix (x y : Nat) : List Char :=
  '_' :: (pad4 x ++ '_' :: pad4 y)

/-- The tile identifier `filename.split('.')[0] + suffix`
(src/main.py line 69). -/
def tile_name (filename : List Char) (x y : Nat) : List Char :=
  pySplit0 '.' filename ++ tileSuffix x y

/-- Decimal evaluation of a digit string (left inverse of `pad4`), used
to prove that the identifier encoding is injective. -/
def decVal (s : List Char) : Nat :=
  s.foldl (fun acc c => acc * 10 + (c.toNat - 48)) 0

/-! ## Grid partitioner and tile orchestrator (`cut_tiles`) -/

/-- Model of Python `range(0, stop, step)` for `step ≥ 1`: the multiples
of `step` below `stop`, in increasing order.  Its length is
`⌈stop/step⌉ = (stop + step - 1) / step`. -/
def pyRange (stop step : Nat) : List Nat :=
  (List.range ((stop + step - 1) / step)).map (fun i => i * step)

/-- The origins visited by the nested loops of `cut_tiles`
(src/main.py lines 63-64): `x` over `range(0, width, tile_size)` outer,
`y` over `range(0, height, tile_size)` inner. -/
def candidates (width height tile_size : Nat) : List (Nat × Nat) :=
  (pyRange width tile_size).flatMap (fun x => (pyRange height tile_size).map (fun y => (x, y)))

/-- The crop box `(x, y, x + (tile_size - 1), y + (tile_size - 1))`
passed to `img.crop` (src/main.py line 65). -/
def cropBox (x y tile_size : Nat) : Nat × Nat × Nat × Nat :=
  (x, y, x + (tile_size - 1), y + (tile_size - 1))

/-- An opened image: its size and its (abstract, PIL-implemented) crop
operation from a box to a tile. -/
structure Img where
  width : Nat
  height : Nat
  crop : Nat × Nat × Nat × Nat → Tile

/-- The loop state of `cut_tiles`: the `should_save_tile` flag
(initialised to `True` on line 62), the running `tile_count`, and the
`(name, tile)` pairs saved so far (`tile.save` calls, in order). -/
structure CutState where
  should_save_tile : Bool
  tile_count : Nat
  saved : List (List Char × Tile)
deriving DecidableEq, Repr

/-- One iteration of the nested loop body of `cut_tiles`
(src/main.py lines 65-84), with the transparency classifier passed as a
parameter so that claims about classifier invocation can be stated. -/
def cut_tiles_step (classifier : Tile → Bool) (img : Img) (filename : List Char)
    (tile_size : Nat) (no_alpha : Bool) (st : CutState) (xy : Nat × Nat) : CutState :=
  let tile := img.crop (cropBox xy.1 xy.2 tile_size)
  let name := tile_name filename xy.1 xy.2
  let st' := if no_alpha then { st with should_save_tile := !(classifier tile) } else st
  if st'.should_save_tile then
    { st' with tile_count := st'.tile_count + 1, saved := st'.saved ++ [(name, tile)] }
  else
    st'

/-- The body of `cut_tiles` with the classifier as a parameter. -/
def cut_tilesWith (classifier : Tile → Bool) (img : Img) (filename : List Char)
    (tile_size : Nat) (no_alpha : Bool) : CutState :=
  (candidates img.width img.height tile_size).foldl
    (cut_tiles_step classifier img filename tile_size no_alpha)
    { should_save_tile := true, tile_count := 0, saved := [] }

/-- Shallow embedding of `cut_tiles` (src/main.py lines 56-86): the
source calls `has_transparency` directly. -/
def cut_tiles (img : Img) (filename : List Char) (tile_size : Nat) (no_alpha : Bool) : CutState :=
  cut_tilesWith has_transparency img filename tile_size no_alpha

/-- The `(name, tile)` pair that `cut_tiles` saves for an accepted origin. -/
def savedEntry (img : Img) (filename : List Char) (tile_size : Nat) (xy : Nat × Nat) :
    List Char × Tile :=
  (tile_name filename xy.1 xy.2, img.crop (cropBox xy.1 xy.2 tile_size))

/-- The decision `cut_tiles` takes for one origin under the active
no-alpha policy: `none` (rejected) when the classifier detects
transparency in the cropped tile, otherwise the saved `(name, tile)`
pair. -/
def acceptEntry (classifier : Tile → Bool) (img : Img) (filename : List Char)
    (tile_size : Nat) (xy : Nat × Nat) : Option (List Char × Tile) :=
  if classifier (img.crop (cropBox xy.1 xy.2 tile_size)) then none
  else some (savedEntry img filename tile_size xy)

/-! ## `convert_geotiff` and the GeoTIFF pass of `gextool` -/

/-- Environment of one `convert_geotiff` call, abstracting the two
external collaborators: `minmax_match` is `some (floor min, floor max)`
when the regex over the `gdalinfo -mm` output matches (`none` otherwise),
and `translate_creates_output` tells whether the expected output file of
`gdal_translate` exists afterwards (`os.path.isfile(output_path)`). -/
structure ConvertEnv where
  minmax_match : Option (Int × Int)
  translate_creates_output : Bool

/-- Outcome of `convert_geotiff`: the Python return value (`None` on the
two error paths) and the converted files remaining on disk afterwards
(on success the non-resized `output_path` is deleted on line 125, so only
the `_resized` file remains). -/
structure ConvertResult where
  ret : Option (List Char)
  files_written : List (List Char)
deriving DecidableEq, Repr

/-- Name `output_filename = filename.split('.')[0] + f"{converted_suffix}.{converted_format}"`
(src/main.py line 110). -/
def output_filename (filename : List Char) : List Char :=
  pySplit0 '.' filename ++ converted_suffix ++ '.' :: converted_format

/-- Name `resize_filename = filename.split('.')[0] + f"{converted_suffix}_resized.{converted_format}"`
(src/main.py line 122). -/
def resize_filename (filename : List Char) : List Char :=
  pySplit0 '.' filename ++ converted_suffix ++ "_resized.".toList ++ converted_format

/-- Shallow embedding of `convert_geotiff` (src/main.py lines 89-130):
no regex match ⇒ return `None` with nothing produced; `gdal_translate`
output absent ⇒ return `None` with nothing produced; otherwise the
resized file is written, the intermediate deleted, and `output_filename`
returned. -/
def convert_geotiff (env : ConvertEnv) (filename : List Char) : ConvertResult :=
  match env.minmax_match with
  | none => { ret := none, files_written := [] }
  | some _ =>
      if env.translate_creates_output then
        { ret := some (output_filename filename), files_written := [resize_filename filename] }
      else
        { ret := none, files_written := [] }

/-- The name tested by the already-converted check of `gextool`
(src/main.py line 162): `filename.split(',')[0] + f'{converted_suffix}.{converted_format}'`
— note the split on a comma, not a dot. -/
def gexd_name (filename : List Char) : List Char :=
  pySplit0 ',' filename ++ converted_suffix ++ '.' :: converted_format

/-- What the GeoTIFF loop of `gextool` does with one `.tif` file
(src/main.py lines 161-168). -/
inductive TifAction where
  | already_gexd
  | converted (r : ConvertResult)
deriving DecidableEq, Repr

/-- Environment of a `gextool` run: the `os.path.isfile` oracle and the
per-file conversion environment. -/
structure RunEnv where
  isfile : List Char → Bool
  convert_env : List Char → ConvertEnv

/-- Body of the GeoTIFF loop for one filename (src/main.py lines 161-168):
skip when the (mis-derived) `gexd_name` exists, otherwise convert. -/
def process_tif (env : RunEnv) (filename : List Char) : TifAction :=
  if env.isfile (gexd_name filename) then .already_gexd
  else .converted (convert_geotiff (env.convert_env filename) filename)

/-- The GeoTIFF pass of `gextool` (src/main.py lines 160-168): every
`.tif` file in the listing is handled in turn, each independently of the
outcomes of the others. -/
def process_tifs (env : RunEnv) (listing : List (List Char)) : List TifAction :=
  (listing.filter (fun f => pyEndswith f (".tif".toList))).map (process_tif env)

/-! ## Output-directory setup of `gextool` -/

/-- Environment for the output-directory check: whether
`os.path.isdir(output_dir)` holds on entry, whether `os.mkdir(output_dir)`
raises `OSError` (in CPython `os.mkdir` signals every failure to create —
permissions, missing parent, path occupied by a file — by raising), and
whether the directory exists after the creation attempt. -/
structure DirEnv where
  isdir_before : Bool
  mkdir_raises : Bool
  isdir_after : Bool

/-- Shallow embedding of the output-directory setup at the top of
`gextool` (src/main.py lines 136-144).  The `os.mkdir` call is not
wrapped in try/except, so a raising `mkdir` propagates (`Except.error`)
and the run aborts before any processing.  When control falls through,
the result is `.ok reported` where `reported` records whether the
"failed to create output_dir" trace was printed (both branches of the
inner check only print and processing continues). -/
def ensure_output_dir (env : DirEnv) : Except (List Char) Bool :=
  if env.isdir_before then .ok false
  else if env.mkdir_raises then .error ("OSError".toList)
  else if !env.isdir_after then .ok true
  else .ok false

/-! ## Concrete inputs used by the witness theorems -/

/-- A concrete P-mode tile used to exercise the classifier theorems. -/
def sampleP : Tile :=
  { mode := .P, transparency := none, pixels := [.scalar 3, .scalar 0, .scalar 7] }

/-- A concrete RGBA tile with one partially transparent pixel. -/
def sampleRGBA : Tile :=
  { mode := .RGBA, transparency := none,
    pixels := [.rgba 10 20 30 255, .rgba 0 0 0 254] }

/-- A concrete fully opaque RGBA tile. -/
def sampleOpaque : Tile :=
  { mode := .RGBA, transparency := none, pixels := [.rgba 1 2 3 255] }

/-- A concrete 2×2 image whose (128,128)-style corner tile is the
transparent `sampleRGBA` and whose other tiles are opaque. -/
def sampleImg : Img :=
  { width := 2, height := 2,
    crop := fun box => if box = cropBox 1 1 1 then sampleRGBA else sampleOpaque }

/-- A concrete conversion environment whose `gdalinfo` output has no
parseable min/max. -/
def noMatchEnv : ConvertEnv :=
  { minmax_match := none, translate_creates_output := true }

/-! ## Theorems -/

lemma any_getcolors (pixels : List Pixel) (f : Pixel → Bool) :
    (getcolors pixels).any f = pixels.any f := by
  apply Bool.eq_iff_iff.mpr
  simp only [getcolors, List.any_eq_true, List.mem_dedup]

/-- C1: for well-formed tiles the classifier agrees with the
specification's three-rule contract: (1) in indexed-palette mode, some
pixel equals the designated transparent index (sentinel −1 when none is
designated, which matches no pixel); (2) in RGB-with-alpha mode, the
minimum alpha over all pixels is below 255; (3) in any mode, some raw
pixel value equals the integer 0; otherwise `false`. -/
theorem has_transparency_eq_claim (t : Tile) (hwf : t.wf = true) :
    has_transparency t = transparency_claim t := by
  unfold has_transparency transparency_claim Tile.wf at *
  cases hm : t.mode with
  | P =>
      rw [hm] at hwf
      cases ht : t.transparency with
      | some idx =>
          simp only [ht, Option.getD_some, any_getcolors]
      | none =>
          simp only [ht, Option.getD_none]
          rw [if_neg]
          rw [any_getcolors]
          simp only [List.any_eq_true, decide_eq_true_eq, not_exists, not_and]
          intro p hp hcontra
          have hall := List.all_eq_true.mp hwf p hp
          subst hcontra
          simp only [Bool.and_eq_true, decide_eq_true_eq] at hall
          omega
  | RGBA => rfl
  | other => rfl

/-- Witness for C1: the classifier equality evaluated on a concrete
well-formed tile. -/
theorem has_transparency_eq_claim_witness :
    has_transparency sampleP = transparency_claim sampleP :=
  has_transparency_eq_claim sampleP (by decide)

/-- C10: in RGBA mode on a well-formed tile the universal zero-value rule
can never fire (every pixel is a 4-tuple, never the integer 0), so the
classifier fires exactly when the minimum alpha is below 255. -/
theorem rgba_transparency_iff_alpha (t : Tile) (hm : t.mode = .RGBA)
    (hwf : t.wf = true) :
    t.pixels.any (fun pixel => decide (pixel = .scalar 0)) = false ∧
      (has_transparency t = true ↔ alpha_extrema_min t.pixels < 255) := by
  unfold Tile.wf at hwf
  rw [hm] at hwf
  have hzero : t.pixels.any (fun pixel => decide (pixel = .scalar 0)) = false := by
    simp only [List.any_eq_false, decide_eq_true_eq]
    intro p hp
    have := List.all_eq_true.mp hwf p hp
    cases p with
    | scalar v => simp at this
    | rgba r g b a => intro hcontra; cases hcontra
  refine ⟨hzero, ?_⟩
  unfold has_transparency
  rw [hm]
  constructor
  · intro h
    by_contra hlt
    rw [if_neg hlt, hzero] at h
    cases h
  · intro h
    rw [if_pos h]

/-- Witness for C10: evaluated on a concrete RGBA tile whose minimum
alpha is 254. -/
theorem rgba_transparency_iff_alpha_witness :
    sampleRGBA.pixels.any (fun pixel => decide (pixel = .scalar 0)) = false ∧
      (has_transparency sampleRGBA = true ↔ alpha_extrema_min sampleRGBA.pixels < 255) :=
  rgba_transparency_iff_alpha sampleRGBA (by decide) (by decide)

lemma length_flatMap_pairs {α β γ : Type} (xs : List α) (ys : List β) (f : α → β → γ) :
    (xs.flatMap (fun x => ys.map (f x))).length = xs.length * ys.length := by
  induction xs with
  | nil => simp
  | cons x xs ih =>
      simp only [List.flatMap_cons, List.length_append, List.length_map, ih, List.length_cons]
      ring

lemma length_candidates (width height tile_size : Nat) :
    (candidates width height tile_size).length
      = ((width + tile_size - 1) / tile_size) * ((height + tile_size - 1) / tile_size) := by
  unfold candidates
  rw [length_flatMap_pairs]
  simp [pyRange]

lemma mem_pyRange_lt {stop step x : Nat} (hstep : 1 ≤ step) (hx : x ∈ pyRange stop step) :
    x < stop := by
  unfold pyRange at hx
  simp only [List.mem_map, List.mem_range] at hx
  obtain ⟨i, hi, rfl⟩ := hx
  have h2 : (i + 1) * step ≤ stop + step - 1 :=
    (Nat.le_div_iff_mul_le (by omega)).mp hi
  have h3 : i * step + step = (i + 1) * step := by ring
  omega

lemma cut_tiles_step_true (classifier : Tile → Bool) (img : Img) (filename : List Char)
    (tile_size : Nat) (st : CutState) (xy : Nat × Nat) :
    cut_tiles_step classifier img filename tile_size true st xy =
      if classifier (img.crop (cropBox xy.1 xy.2 tile_size)) then
        { st with should_save_tile := false }
      else
        { should_save_tile := true,
          tile_count := st.tile_count + 1,
          saved := st.saved ++ [savedEntry img filename tile_size xy] } := by
  unfold cut_tiles_step savedEntry
  cases h : classifier (img.crop (cropBox xy.1 xy.2 tile_size)) <;> simp [h]

lemma cut_tiles_step_false (classifier : Tile → Bool) (img : Img) (filename : List Char)
    (tile_size : Nat) (st : CutState) (xy : Nat × Nat) :
    cut_tiles_step classifier img filename tile_size false st xy =
      if st.should_save_tile then
        { st with tile_count := st.tile_count + 1,
                  saved := st.saved ++ [savedEntry img filename tile_size xy] }
      else st := by
  unfold cut_tiles_step savedEntry
  cases h : st.should_save_tile <;> simp [h]

lemma cut_tiles_foldl_true (classifier : Tile → Bool) (img : Img) (filename : List Char)
    (tile_size : Nat) (l : List (Nat × Nat)) (st : CutState) :
    ((l.foldl (cut_tiles_step classifier img filename tile_size true) st).saved
        = st.saved ++ l.filterMap (acceptEntry classifier img filename tile_size)) ∧
      ((l.foldl (cut_tiles_step classifier img filename tile_size true) st).tile_count
        = st.tile_count + (l.filterMap (acceptEntry classifier img filename tile_size)).length) := by
  induction l generalizing st with
  | nil => simp
  | cons xy rest ih =>
      rw [List.foldl_cons, List.filterMap_cons, cut_tiles_step_true]
      cases h : classifier (img.crop (cropBox xy.1 xy.2 tile_size)) with
      | false =>
          simp only [h, Bool.false_eq_true, if_false, acceptEntry]
          obtain ⟨h1, h2⟩ := ih { should_save_tile := true, tile_count := st.tile_count + 1, saved := st.saved ++ [savedEntry img filename tile_size xy] }
          refine ⟨?_, ?_⟩
          · rw [h1]
            simp
          · rw [h2]
            simp
            omega
      | true =>
          simp only [h, if_true, acceptEntry]
          obtain ⟨h1, h2⟩ := ih { st with should_save_tile := false }
          refine ⟨?_, ?_⟩
          · rw [h1]
          · rw [h2]

lemma cut_tiles_foldl_false (classifier : Tile → Bool) (img : Img) (filename : List Char)
    (tile_size : Nat) (l : List (Nat × Nat)) (st : CutState)
    (hs : st.should_save_tile = true) :
    ((l.foldl (cut_tiles_step classifier img filename tile_size false) st).saved
        = st.saved ++ l.map (savedEntry img filename tile_size)) ∧
      ((l.foldl (cut_tiles_step classifier img filename tile_size false) st).tile_count
        = st.tile_count + l.length) ∧
      ((l.foldl (cut_tiles_step classifier img filename tile_size false) st).should_save_tile
        = true) := by
  induction l generalizing st with
  | nil => simpa using hs
  | cons xy rest ih =>
      rw [List.foldl_cons, cut_tiles_step_false, if_pos hs]
      obtain ⟨h1, h2, h3⟩ := ih { st with tile_count := st.tile_count + 1, saved := st.saved ++ [savedEntry img filename tile_size xy] } hs
      refine ⟨?_, ?_, h3⟩
      · rw [h1]; simp
      · rw [h2]; simp; omega

/-- C2: with the no-alpha policy active, `cut_tiles` saves exactly the
candidate tiles the classifier marks opaque — a candidate is rejected iff
`has_transparency` returns `true` on it — so the number of tiles written
is at most the number of candidates, and every omitted tile classifies
transparent. -/
theorem cut_tiles_no_alpha_filters (img : Img) (filename : List Char) (tile_size : Nat)
    (hS : 1 ≤ tile_size) :
    ((cut_tiles img filename tile_size true).saved
        = (candidates img.width img.height tile_size).filterMap
            (acceptEntry has_transparency img filename tile_size)) ∧
      ((cut_tiles img filename tile_size true).tile_count
        ≤ (candidates img.width img.height tile_size).length) ∧
      ∀ xy ∈ candidates img.width img.height tile_size,
        savedEntry img filename tile_size xy ∉ (cut_tiles img filename tile_size true).saved →
          has_transparency (img.crop (cropBox xy.1 xy.2 tile_size)) = true := by
  obtain ⟨h1, h2⟩ := cut_tiles_foldl_true has_transparency img filename tile_size
    (candidates img.width img.height tile_size)
    { should_save_tile := true, tile_count := 0, saved := [] }
  have hsaved : (cut_tiles img filename tile_size true).saved
      = (candidates img.width img.height tile_size).filterMap
          (acceptEntry has_transparency img filename tile_size) := by
    unfold cut_tiles cut_tilesWith
    rw [h1]
    simp
  refine ⟨hsaved, ?_, ?_⟩
  · unfold cut_tiles cut_tilesWith
    rw [h2]
    simpa using List.length_filterMap_le _ _
  · intro xy hmem hnot
    by_contra hcl
    have hcl' : has_transparency (img.crop (cropBox xy.1 xy.2 tile_size)) = false := by
      cases h : has_transparency (img.crop (cropBox xy.1 xy.2 tile_size)) with
      | false => rfl
      | true => exact absurd h hcl
    apply hnot
    rw [hsaved, List.mem_filterMap]
    exact ⟨xy, hmem, by simp [acceptEntry, hcl']⟩

/-- Witness for C2: on a concrete 2×2 image at tile size 1, the written
count is bounded by the candidate count. -/
theorem cut_tiles_no_alpha_filters_witness :
    (cut_tiles sampleImg ("img_GEXD_resized.png".toList) 1 true).tile_count
      ≤ (candidates sampleImg.width sampleImg.height 1).length :=
  (cut_tiles_no_alpha_filters sampleImg ("img_GEXD_resized.png".toList) 1 (by decide)).2.1

/-- C5: with the no-alpha policy inactive the classifier is never
consulted (the run is the same for any two classifiers), every candidate
tile is saved, and the count equals `⌈W/S⌉ * ⌈H/S⌉`. -/
theorem cut_tiles_alpha_allowed (img : Img) (filename : List Char) (tile_size : Nat)
    (f g : Tile → Bool) (hS : 1 ≤ tile_size) :
    (cut_tilesWith f img filename tile_size false
        = cut_tilesWith g img filename tile_size false) ∧
      ((cut_tiles img filename tile_size false).saved
        = (candidates img.width img.height tile_size).map (savedEntry img filename tile_size)) ∧
      ((cut_tiles img filename tile_size false).tile_count
        = ((img.width + tile_size - 1) / tile_size) * ((img.height + tile_size - 1) / tile_size)) := by
  have hstep : ∀ h : Tile → Bool, cut_tiles_step h img filename tile_size false
      = cut_tiles_step f img filename tile_size false := by
    intro h
    funext st xy
    rw [cut_tiles_step_false, cut_tiles_step_false]
  obtain ⟨h1, h2, _⟩ := cut_tiles_foldl_false has_transparency img filename tile_size
    (candidates img.width img.height tile_size)
    { should_save_tile := true, tile_count := 0, saved := [] } rfl
  refine ⟨?_, ?_, ?_⟩
  · unfold cut_tilesWith
    rw [hstep g]
  · unfold cut_tiles cut_tilesWith
    rw [h1]
    simp
  · unfold cut_tiles cut_tilesWith
    rw [h2, length_candidates]
    simp

/-- Witness for C5: on a concrete 2×2 image at tile size 1, all 4
candidates are saved. -/
theorem cut_tiles_alpha_allowed_witness :
    (cut_tiles sampleImg ("img_GEXD_resized.png".toList) 1 false).tile_count
      = ((sampleImg.width + 1 - 1) / 1) * ((sampleImg.height + 1 - 1) / 1) :=
  (cut_tiles_alpha_allowed sampleImg ("img_GEXD_resized.png".toList) 1
    has_transparency (fun _ => false) (by decide)).2.2

/-- C3: for `W, H ≥ 1` and `S ≥ 1` the grid walk of `cut_tiles` visits
exactly `⌈W/S⌉ * ⌈H/S⌉` origins, each inside the image. -/
theorem candidates_count_and_bounds (width height tile_size : Nat)
    (hW : 1 ≤ width) (hH : 1 ≤ height) (hS : 1 ≤ tile_size) :
    ((candidates width height tile_size).length
        = ((width + tile_size - 1) / tile_size) * ((height + tile_size - 1) / tile_size)) ∧
      ∀ xy ∈ candidates width height tile_size, xy.1 < width ∧ xy.2 < height := by
  refine ⟨length_candidates width height tile_size, ?_⟩
  intro xy hxy
  unfold candidates at hxy
  simp only [List.mem_flatMap, List.mem_map] at hxy
  obtain ⟨x, hx, y, hy, hxyeq⟩ := hxy
  subst hxyeq
  exact ⟨mem_pyRange_lt hS hx, mem_pyRange_lt hS hy⟩

/-- Witness for C3: a 2×3 image at tile size 2 yields `1 * 2` origins. -/
theorem candidates_count_and_bounds_witness :
    (candidates 2 3 2).length = ((2 + 2 - 1) / 2) * ((3 + 2 - 1) / 2) :=
  (candidates_count_and_bounds 2 3 2 (by decide) (by decide) (by decide)).1

/-- C4: for every origin the grid walk produces, the box handed to
`img.crop` is `(x, y, x + S - 1, y + S - 1)` — far edge exclusive — so
the requested tile is `S - 1` pixels wide and tall (before any clamping
at the image border), not `S`. -/
theorem cropBox_off_by_one (width height tile_size x y : Nat) (hS : 1 ≤ tile_size)
    (hmem : (x, y) ∈ candidates width height tile_size) :
    (cropBox x y tile_size = (x, y, x + tile_size - 1, y + tile_size - 1)) ∧
      ((x + (tile_size - 1)) - x = tile_size - 1) ∧
      ((y + (tile_size - 1)) - y = tile_size - 1) ∧
      tile_size - 1 < tile_size := by
  unfold cropBox
  have h1 : x + (tile_size - 1) = x + tile_size - 1 := by omega
  have h2 : y + (tile_size - 1) = y + tile_size - 1 := by omega
  rw [h1, h2]
  exact ⟨rfl, by omega, by omega, by omega⟩

/-- Witness for C4: evaluated at origin (0,0) of a 2×2 image with
tile size 2: the crop box is 1 pixel short of 2×2. -/
theorem cropBox_off_by_one_witness :
    (cropBox 0 0 2 = (0, 0, 0 + 2 - 1, 0 + 2 - 1)) ∧
      ((0 + (2 - 1)) - 0 = 2 - 1) ∧ ((0 + (2 - 1)) - 0 = 2 - 1) ∧ 2 - 1 < 2 :=
  cropBox_off_by_one 2 2 2 0 0 (by decide) (by decide)

lemma digitChar_sub_48 : ∀ d : Nat, d < 10 → (Nat.digitChar d).toNat - 48 = d := by
  decide

lemma foldl_decVal_zeros (k : Nat) :
    List.foldl (fun acc c => acc * 10 + (c.toNat - 48)) 0 (List.replicate k '0') = 0 := by
  induction k with
  | zero => rfl
  | succ k ih =>
      rw [List.replicate_succ, List.foldl_cons]
      simpa using ih

lemma foldl_decVal_digits (L : List Nat) (hL : ∀ d ∈ L, d < 10) (acc : Nat) :
    List.foldl (fun acc c => acc * 10 + (c.toNat - 48)) acc ((L.map Nat.digitChar).reverse)
      = acc * 10 ^ L.length + Nat.ofDigits 10 L := by
  induction L generalizing acc with
  | nil => simp
  | cons d tl ih =>
      have hd : d < 10 := hL d (by simp)
      have htl : ∀ e ∈ tl, e < 10 := fun e he => hL e (by simp [he])
      simp only [List.map_cons, List.reverse_cons, List.foldl_append, List.foldl_cons,
        List.foldl_nil]
      rw [ih htl, digitChar_sub_48 d hd, Nat.ofDigits_cons, List.length_cons]
      ring

lemma decVal_pad4 (n : Nat) : decVal (pad4 n) = n := by
  unfold decVal pad4
  rw [List.foldl_append, foldl_decVal_zeros]
  by_cases hn : n = 0
  · subst hn
    decide
  · unfold decRepr
    rw [if_neg hn,
      foldl_decVal_digits _ (fun d hd => Nat.digits_lt_base (by norm_num) hd) 0]
    simp [Nat.ofDigits_digits]

lemma pad4_injective : Function.Injective pad4 := by
  intro a b h
  have h2 := congrArg decVal h
  rwa [decVal_pad4, decVal_pad4] at h2

lemma underscore_not_mem_pad4 (n : Nat) : '_' ∉ pad4 n := by
  unfold pad4 decRepr
  intro hmem
  rcases List.mem_append.mp hmem with h | h
  · exact absurd (List.eq_of_mem_replicate h) (by decide)
  · by_cases hn : n = 0
    · rw [if_pos hn] at h
      exact absurd (List.mem_singleton.mp h) (by decide)
    · rw [if_neg hn, List.mem_reverse] at h
      obtain ⟨d, hd, hEq⟩ := List.mem_map.mp h
      have hlt : d < 10 := Nat.digits_lt_base (by norm_num) hd
      have : ∀ e : Nat, e < 10 → Nat.digitChar e ≠ '_' := by decide
      exact this d hlt hEq

lemma append_underscore_inj :
    ∀ a : List Char, '_' ∉ a → ∀ c : List Char, '_' ∉ c →
      ∀ b d : List Char, a ++ '_' :: b = c ++ '_' :: d → a = c ∧ b = d := by
  intro a
  induction a with
  | nil =>
      intro _ c hc b d h
      cases c with
      | nil =>
          simp only [List.nil_append, List.cons.injEq] at h
          exact ⟨rfl, h.2⟩
      | cons e c' =>
          simp only [List.nil_append, List.cons_append, List.cons.injEq] at h
          exact absurd (h.1 ▸ List.mem_cons_self e c') hc
  | cons x a' ih =>
      intro ha c hc b d h
      cases c with
      | nil =>
          simp only [List.cons_append, List.nil_append, List.cons.injEq] at h
          exact absurd (h.1 ▸ List.mem_cons_self x a') ha
      | cons e c' =>
          simp only [List.cons_append, List.cons.injEq] at h
          obtain ⟨hxe, hrest⟩ := h
          have ha' : '_' ∉ a' := fun hm => ha (List.mem_cons_of_mem x hm)
          have hc' : '_' ∉ c' := fun hm => hc (List.mem_cons_of_mem e hm)
          obtain ⟨h1, h2⟩ := ih ha' c' hc' b d hrest
          exact ⟨by rw [hxe, h1], h2⟩

lemma tileSuffix_inj {x1 y1 x2 y2 : Nat} (h : tileSuffix x1 y1 = tileSuffix x2 y2) :
    x1 = x2 ∧ y1 = y2 := by
  unfold tileSuffix at h
  have h2 : pad4 x1 ++ '_' :: pad4 y1 = pad4 x2 ++ '_' :: pad4 y2 :=
    List.tail_eq_of_cons_eq h
  obtain ⟨hx, hy⟩ := append_underscore_inj (pad4 x1) (underscore_not_mem_pad4 x1)
    (pad4 x2) (underscore_not_mem_pad4 x2) (pad4 y1) (pad4 y2) h2
  exact ⟨pad4_injective hx, pad4_injective hy⟩

lemma tile_name_inj (filename : List Char) {x1 y1 x2 y2 : Nat}
    (h : tile_name filename x1 y1 = tile_name filename x2 y2) : x1 = x2 ∧ y1 = y2 :=
  tileSuffix_inj (List.append_cancel_left h)

lemma nodup_pyRange (stop step : Nat) (hstep : 1 ≤ step) : (pyRange stop step).Nodup := by
  unfold pyRange
  refine List.Nodup.map_on ?_ (List.nodup_range _)
  intro i _ j _ hij
  exact Nat.eq_of_mul_eq_mul_right (by omega) hij

lemma nodup_candidates (width height tile_size : Nat) (hS : 1 ≤ tile_size) :
    (candidates width height tile_size).Nodup := by
  have hprod : candidates width height tile_size
      = pyRange width tile_size ×ˢ pyRange height tile_size := rfl
  rw [hprod]
  exact List.Nodup.product (nodup_pyRange _ _ hS) (nodup_pyRange _ _ hS)

/-- C6: one grid walk visits pairwise distinct origins, the derived tile
identifiers `{stem}_{x:0>4}_{y:0>4}` are pairwise distinct within the
file's run, and the identifier encoding is injective on origins for every
coordinate value (the zero-padding never truncates). -/
theorem tile_identifiers_unique (filename : List Char) (width height tile_size : Nat)
    (hS : 1 ≤ tile_size) :
    (candidates width height tile_size).Nodup ∧
      ((candidates width height tile_size).map
          (fun xy => tile_name filename xy.1 xy.2)).Nodup ∧
      ∀ x1 y1 x2 y2 : Nat,
        tile_name filename x1 y1 = tile_name filename x2 y2 → x1 = x2 ∧ y1 = y2 := by
  refine ⟨nodup_candidates _ _ _ hS, ?_, fun x1 y1 x2 y2 h => tile_name_inj filename h⟩
  refine List.Nodup.map_on ?_ (nodup_candidates _ _ _ hS)
  intro xy _ zw _ h
  obtain ⟨h1, h2⟩ := tile_name_inj filename h
  cases xy
  cases zw
  simp only at h1 h2
  rw [h1, h2]

/-- Witness for C6: distinctness evaluated on the grid of a 2×2 image at
tile size 1 (origin coordinates 0 and 1). -/
theorem tile_identifiers_unique_witness :
    (candidates 2 2 1).Nodup ∧
      ((candidates 2 2 1).map
          (fun xy => tile_name ("img_GEXD_resized.png".toList) xy.1 xy.2)).Nodup :=
  ⟨(tile_identifiers_unique ("img_GEXD_resized.png".toList) 2 2 1 (by decide)).1,
   (tile_identifiers_unique ("img_GEXD_resized.png".toList) 2 2 1 (by decide)).2.1⟩

/-- C7: when the `gdalinfo` output has no parseable min/max, or the
`gdal_translate` output file is absent, `convert_geotiff` returns `None`
without producing a rescaled file — and the GeoTIFF pass handles every
listed file independently, so the run continues with the remaining
files. -/
theorem convert_geotiff_per_file_skip (env : ConvertEnv) (filename : List Char)
    (h : env.minmax_match = none ∨ env.translate_creates_output = false) :
    ((convert_geotiff env filename).ret = none ∧
        (convert_geotiff env filename).files_written = []) ∧
      ∀ (renv : RunEnv) (pre post : List (List Char)),
        process_tifs renv (pre ++ post)
          = process_tifs renv pre ++ process_tifs renv post := by
  constructor
  · unfold convert_geotiff
    rcases h with h | h
    · rw [h]
      exact ⟨rfl, rfl⟩
    · cases hm : env.minmax_match with
      | none => exact ⟨rfl, rfl⟩
      | some mm =>
          rw [h]
          simp
  · intro renv pre post
    unfold process_tifs
    rw [List.filter_append, List.map_append]

/-- Witness for C7: a conversion whose `gdalinfo` output has no match
produces nothing and returns `None`. -/
theorem convert_geotiff_per_file_skip_witness :
    (convert_geotiff noMatchEnv ("N40W106.tif".toList)).ret = none ∧
      (convert_geotiff noMatchEnv ("N40W106.tif".toList)).files_written = [] :=
  (convert_geotiff_per_file_skip noMatchEnv ("N40W106.tif".toList) (Or.inl rfl)).1

/-- Counterexample to C8: when the output directory does not exist and
`os.mkdir` cannot create it, the uncaught `OSError` aborts the run — the
result is an error, not the reported-and-continue outcome the claim
describes. -/
theorem ensure_output_dir_abort_cex :
    ensure_output_dir { isdir_before := false, mkdir_raises := true, isdir_after := false }
      = Except.error ("OSError".toList) := rfl

/-- C8 (amended): if the output directory does not exist and the
`os.mkdir` call raises (the directory cannot be created), the error
propagates uncaught and the run aborts immediately; only when the
creation call returns without raising does the run continue — reporting
the configuration error and proceeding in a degraded state in the
(practically unreachable) case that the directory is still absent. -/
theorem ensure_output_dir_amended (env : DirEnv) :
    (env.isdir_before = false → env.mkdir_raises = true →
        ensure_output_dir env = Except.error ("OSError".toList)) ∧
      (env.isdir_before = false → env.mkdir_raises = false → env.isdir_after = false →
        ensure_output_dir env = Except.ok true) ∧
      (env.mkdir_raises = false → ∃ reported : Bool, ensure_output_dir env = Except.ok reported) := by
  obtain ⟨b1, b2, b3⟩ := env
  refine ⟨?_, ?_, ?_⟩
  · intro h1 h2
    simp only at h1 h2
    subst h1
    subst h2
    rfl
  · intro h1 h2 h3
    simp only at h1 h2 h3
    subst h1
    subst h2
    subst h3
    rfl
  · intro h2
    simp only at h2
    subst h2
    cases b1 with
    | true => exact ⟨false, rfl⟩
    | false =>
        cases b3 with
        | true => exact ⟨false, rfl⟩
        | false => exact ⟨true, rfl⟩

/-- Witness for C8 (amended): a non-raising creation attempt that leaves
the directory absent reports and continues. -/
theorem ensure_output_dir_amended_witness :
    ensure_output_dir { isdir_before := false, mkdir_raises := false, isdir_after := false }
      = Except.ok true :=
  (ensure_output_dir_amended
    { isdir_before := false, mkdir_raises := false, isdir_after := false }).2.1 rfl rfl rfl

lemma pySplit0_eq_self {sep : Char} {s : List Char} (h : sep ∉ s) : pySplit0 sep s = s := by
  unfold pySplit0
  rw [List.takeWhile_eq_self_iff]
  intro x hx
  simp only [decide_eq_true_eq]
  intro heq
  exact h (heq ▸ hx)

lemma length_pySplit0_lt {sep : Char} {s : List Char} (h : sep ∈ s) :
    (pySplit0 sep s).length < s.length := by
  unfold pySplit0
  rcases Nat.lt_or_ge (s.takeWhile (fun c => decide (c ≠ sep))).length s.length with hlt | hge
  · exact hlt
  · exfalso
    have hpre := List.takeWhile_prefix (l := s) (fun c => decide (c ≠ sep))
    have hle := hpre.length_le
    have heq := hpre.eq_of_length (le_antisymm hle hge)
    have hsep := List.takeWhile_eq_self_iff.mp heq sep h
    simp at hsep

/-- C9: for a `.tif` filename without a comma, the already-converted
check of `gextool` tests `filename + "_GEXD.png"` (the stem is split on a
comma, not a dot), while the converter's output name is the part before
the first dot plus `"_GEXD.png"`; the two names always differ, so the
conversion is invoked even when the converted output exists. -/
theorem gexd_check_name_mismatch (f : List Char)
    (htif : pyEndswith f (".tif".toList) = true) (hcomma : ',' ∉ f) :
    (gexd_name f = f ++ (converted_suffix ++ '.' :: converted_format)) ∧
      gexd_name f ≠ output_filename f ∧
      ∀ env : RunEnv, env.isfile (output_filename f) = true →
        env.isfile (gexd_name f) = false →
        process_tif env f = .converted (convert_geotiff (env.convert_env f) f) := by
  have hdot : '.' ∈ f := by
    have hsuf : (".tif".toList) <:+ f := by
      rw [← List.isSuffixOf_iff_suffix]
      exact htif
    obtain ⟨r, hr⟩ := hsuf
    rw [← hr]
    simp [List.mem_append]
  have h1 : gexd_name f = f ++ (converted_suffix ++ '.' :: converted_format) := by
    unfold gexd_name
    rw [pySplit0_eq_self hcomma, List.append_assoc]
  have hlen : (output_filename f).length < (gexd_name f).length := by
    unfold output_filename
    rw [h1]
    simp only [List.length_append, List.length_cons]
    have := length_pySplit0_lt hdot
    omega
  refine ⟨h1, fun heq => by rw [heq] at hlen; omega, ?_⟩
  intro env _ h2
  unfold process_tif
  rw [h2]
  simp

/-- Witness for C9: on the filename `N40W106.tif` the checked name and
the converter's output name differ. -/
theorem gexd_check_name_mismatch_witness :
    gexd_name ("N40W106.tif".toList) ≠ output_filename ("N40W106.tif".toList) :=
  (gexd_check_name_mismatch ("N40W106.tif".toList) (by decide) (by decide)).2.1

end GEXtool
